import Mathlib

/-!
Shallow embedding of the command dispatch engine of `opt/scriptrunner/app.py`
(the ScriptRunner repository): the helper `run_ssh_command` (lines 81-100) and
the `/api/run` handler `run_command` (lines 187-223), together with the data
they read (rows of the `servers` table) and the data they write (rows of the
`runs` table, the JSON response array).

The external world (paramiko: connecting, authenticating, executing) is an
oracle `SSHWorld`: for each SSH call the oracle answers either with the two
captured streams (the `try` block ran to completion) or with the text of a
raised exception (anything in the `try` block failed).  The engine is
deterministic given the oracle, so every property of the Python code is a
property of these functions quantified over all oracles.
-/

namespace ScriptRunner

/-- A row of the `servers` table as read by `run_command` (app.py line 193):
`SELECT host, username, password_enc, keyfile_path, os FROM servers WHERE id=?`.
`password_enc` and `keyfile_path` are nullable columns, modelled as
`Option String`. -/
structure Server where
  id : Int
  host : String
  username : String
  password_enc : Option String
  keyfile_path : Option String
  os : String
  deriving DecidableEq, Repr

/-- One element of the request's `commands: List[dict]` array.  An element is
either not a dictionary at all, or a dictionary whose `"os"` and `"cmd"` keys
are each present (`some`) or absent (`none`) — exactly the distinctions tested
by app.py line 206. -/
inductive CmdEntry where
  | notDict : CmdEntry
  | dict (osTag : Option String) (cmd : Option String) : CmdEntry
  deriving DecidableEq, Repr

/-- The authentication method chosen for one SSH connection attempt
(app.py lines 87-91).  A sum type: a single attempt carries either the key
file or the password, never both. -/
inductive AuthMethod where
  | key (path : String) : AuthMethod
  | pwd (password : Option String) : AuthMethod
  deriving DecidableEq, Repr

/-- One invocation of `run_ssh_command`, i.e. one fresh `paramiko.SSHClient`
session attempt: its connection parameters, chosen authentication method,
command text and timeout. -/
structure SSHCall where
  host : String
  username : String
  auth : AuthMethod
  command : String
  timeout : Int
  deriving DecidableEq, Repr

/-- What the outside world does with one SSH call: either the whole `try`
block of `run_ssh_command` succeeds, yielding the decoded stdout and stderr
streams, or some step (key load, connect, exec, read, close) raises an
exception with the given message (`str(e)`). -/
inductive SSHResult where
  | conn (stdoutText : String) (stderrText : String) : SSHResult
  | exc (message : String) : SSHResult
  deriving DecidableEq, Repr

/-- The oracle modelling the network: a fixed answer for every SSH call. -/
structure SSHWorld where
  run : SSHCall → SSHResult

/-- app.py lines 87-91.  Python truthiness of `if keyfile:`: `None` and the
empty string are falsy.  If the keyfile argument is truthy the client
authenticates with the key file (`pkey=...`), otherwise with the password;
the two branches are exclusive. -/
def authOf (password keyfile : Option String) : AuthMethod :=
  match keyfile with
  | none => AuthMethod.pwd password
  | some k => if k = "" then AuthMethod.pwd password else AuthMethod.key k

/-- The SSH call issued by one invocation of `run_ssh_command`. -/
def sshCallOf (host username : String) (password keyfile : Option String)
    (command : String) (timeout : Int) : SSHCall :=
  ⟨host, username, authOf password keyfile, command, timeout⟩

/-- app.py lines 81-100, `run_ssh_command`: returns the `(status, output)`
pair.  On success the status is `"ok"` and the output is
`out + ("\nERR:\n" + err if err else "")`; on any exception the status is
`"error"` and the output is the exception text.  Note that the status does
not depend on the stderr stream. -/
def run_ssh_command (world : SSHWorld) (host username : String)
    (password keyfile : Option String) (command : String) (timeout : Int) :
    String × String :=
  match world.run (sshCallOf host username password keyfile command timeout) with
  | SSHResult.conn out err => ("ok", out ++ (if err = "" then "" else "\nERR:\n" ++ err))
  | SSHResult.exc msg => ("error", msg)

/-- "Non-empty after trimming": the string contains at least one
non-whitespace character (equivalent to Python's `s.strip() != ""`). -/
def trimmedNonempty (s : String) : Bool :=
  s.data.any (fun c => !c.isWhitespace)

/-- The running state of the per-host command loop of `run_command`
(app.py lines 203-212): the current `server_status`, the accumulated
`server_output`, and — as instrumentation — the list of SSH calls issued so
far (one per `run_ssh_command` invocation). -/
structure ExecAcc where
  status : String
  output : String
  trace : List SSHCall
  deriving DecidableEq, Repr

/-- The body of the `for cmd_obj in payload.commands:` loop
(app.py lines 205-212).  Entries that are not dicts or lack an `"os"` or
`"cmd"` key are skipped (line 206), entries whose `"os"` differs from the
server's `os` are skipped (line 208); otherwise `run_ssh_command` is invoked,
a `"$ <cmd>\n<output>\n"` block is appended, and a non-`"ok"` status
overwrites `server_status` (lines 210-212). -/
def commandStep (world : SSHWorld) (host username : String)
    (password keyfile : Option String) (timeout : Int) (server_os : String)
    (acc : ExecAcc) (cmdObj : CmdEntry) : ExecAcc :=
  match cmdObj with
  | CmdEntry.notDict => acc
  | CmdEntry.dict none _ => acc
  | CmdEntry.dict (some _) none => acc
  | CmdEntry.dict (some osTag) (some cmd) =>
    if osTag = server_os then
      let r := run_ssh_command world host username password keyfile cmd timeout
      ⟨if r.1 = "ok" then acc.status else r.1,
       acc.output ++ ("$ " ++ cmd ++ "\n" ++ r.2 ++ "\n"),
       acc.trace ++ [sshCallOf host username password keyfile cmd timeout]⟩
    else acc

/-- Recursive restatement of the command loop, producing the same final
state as folding `commandStep` from `⟨"ok", "", []⟩` (proved in
`foldl_commandStep`): output blocks in input order, one trace entry per
executed command, and the status of the last non-`"ok"` command (or `"ok"`). -/
def execCommands (world : SSHWorld) (host username : String)
    (password keyfile : Option String) (timeout : Int) (server_os : String) :
    List CmdEntry → ExecAcc
  | [] => ⟨"ok", "", []⟩
  | CmdEntry.notDict :: rest =>
    execCommands world host username password keyfile timeout server_os rest
  | CmdEntry.dict none _ :: rest =>
    execCommands world host username password keyfile timeout server_os rest
  | CmdEntry.dict (some _) none :: rest =>
    execCommands world host username password keyfile timeout server_os rest
  | CmdEntry.dict (some osTag) (some cmd) :: rest =>
    if osTag = server_os then
      let r := run_ssh_command world host username password keyfile cmd timeout
      let a := execCommands world host username password keyfile timeout server_os rest
      ⟨if a.status = "ok" then (if r.1 = "ok" then "ok" else r.1) else a.status,
       ("$ " ++ cmd ++ "\n" ++ r.2 ++ "\n") ++ a.output,
       sshCallOf host username password keyfile cmd timeout :: a.trace⟩
    else execCommands world host username password keyfile timeout server_os rest

/-- The command texts of the entries applicable to a server: well-formed
dict entries whose `"os"` value equals the server's `os` exactly, in input
order (the entries that pass the two `continue` guards of lines 206-209). -/
def applicable (server_os : String) : List CmdEntry → List String
  | [] => []
  | CmdEntry.notDict :: rest => applicable server_os rest
  | CmdEntry.dict none _ :: rest => applicable server_os rest
  | CmdEntry.dict (some _) none :: rest => applicable server_os rest
  | CmdEntry.dict (some osTag) (some cmd) :: rest =>
    if osTag = server_os then cmd :: applicable server_os rest
    else applicable server_os rest

/-- Concatenation of a list of strings (left to right, empty for `[]`). -/
def concatBlocks : List String → String
  | [] => ""
  | b :: rest => b ++ concatBlocks rest

/-- app.py line 193: `SELECT ... FROM servers WHERE id=?` followed by
`fetchone()` — the first row whose primary key equals the requested id, if
any. -/
def resolve (servers : List Server) (sid : Int) : Option Server :=
  servers.find? (fun s => s.id == sid)

/-- app.py line 201:
`password = fernet.decrypt(password_enc.encode()).decode() if password_enc else None`.
The Fernet decryption is the abstract `decrypt` parameter; Python truthiness
again treats `None` and `""` as falsy. -/
def decryptPassword (decrypt : String → String) (enc : Option String) :
    Option String :=
  match enc with
  | none => none
  | some e => if e = "" then none else some (decrypt e)

/-- One element of the JSON response array of `/api/run`
(app.py lines 197 and 222). -/
structure RunResult where
  server_id : Int
  status : String
  output : String
  deriving DecidableEq, Repr

/-- One row inserted into the `runs` table (app.py lines 216-218).  The
`command` column stores `json.dumps(payload.commands)`; JSON serialization of
the list is injective, so the record keeps the list itself.  `created_at` is
wall-clock time and is not modelled. -/
structure RunRecord where
  server_id : Int
  command : List CmdEntry
  output : String
  status : String
  deriving DecidableEq, Repr

/-- Everything one iteration of the `for sid in payload.server_ids:` loop
produces: the result appended to `results`, the rows inserted into `runs`
(one for a resolved host, none for an unknown id), and the SSH calls issued. -/
structure HostRun where
  result : RunResult
  records : List RunRecord
  trace : List SSHCall
  deriving DecidableEq, Repr

/-- The body of the `for sid in payload.server_ids:` loop of `run_command`
(app.py lines 190-222).  An id with no matching row yields
`{status: "error", output: "Server not found"}` and `continue` — no record,
no SSH call.  Otherwise the command loop runs and one row is inserted into
`runs` carrying the full `payload.commands` list. -/
def processHost (world : SSHWorld) (decrypt : String → String)
    (servers : List Server) (commands : List CmdEntry) (timeout : Int)
    (sid : Int) : HostRun :=
  match resolve servers sid with
  | none => ⟨⟨sid, "error", "Server not found"⟩, [], []⟩
  | some srv =>
    let password := decryptPassword decrypt srv.password_enc
    let acc := commands.foldl
      (commandStep world srv.host srv.username password srv.keyfile_path
        timeout srv.os)
      ⟨"ok", "", []⟩
    ⟨⟨sid, acc.status, acc.output⟩, [⟨sid, commands, acc.output, acc.status⟩],
     acc.trace⟩

/-- The request body of `POST /api/run` (the `RunCommand` pydantic model,
app.py lines 75-78). -/
structure RunPayload where
  server_ids : List Int
  commands : List CmdEntry
  timeout : Int
  deriving DecidableEq, Repr

/-- The observable effect of one `/api/run` call: the JSON response array,
the rows appended to `runs`, and the SSH calls issued, each in order. -/
structure DispatchOut where
  results : List RunResult
  records : List RunRecord
  trace : List SSHCall
  deriving DecidableEq, Repr

/-- The host loop of `run_command`, one recursion step per requested id; the
loop appends each iteration's result, rows and calls in order. -/
def run_command_loop (world : SSHWorld) (decrypt : String → String)
    (servers : List Server) (commands : List CmdEntry) (timeout : Int) :
    List Int → DispatchOut
  | [] => ⟨[], [], []⟩
  | sid :: rest =>
    let h := processHost world decrypt servers commands timeout sid
    let r := run_command_loop world decrypt servers commands timeout rest
    ⟨h.result :: r.results, h.records ++ r.records, h.trace ++ r.trace⟩

/-- app.py lines 187-223, the `/api/run` handler `run_command`. -/
def run_command (world : SSHWorld) (decrypt : String → String)
    (servers : List Server) (payload : RunPayload) : DispatchOut :=
  run_command_loop world decrypt servers payload.commands payload.timeout
    payload.server_ids

/-- A request command entry skipped by the guard of app.py line 206:
not a dictionary, or missing the `"os"` key or the `"cmd"` key. -/
def isMalformed : CmdEntry → Bool
  | CmdEntry.notDict => true
  | CmdEntry.dict none _ => true
  | CmdEntry.dict (some _) none => true
  | CmdEntry.dict (some _) (some _) => false

/-! ### Helper lemmas -/

/-- Folding the loop body `commandStep` from an arbitrary accumulator
appends the recursion's output and trace and combines statuses as the loop
does (the last non-`"ok"` status wins). -/
theorem foldl_commandStep (world : SSHWorld) (host username : String)
    (password keyfile : Option String) (timeout : Int) (server_os : String)
    (cmds : List CmdEntry) :
    ∀ acc : ExecAcc,
      cmds.foldl (commandStep world host username password keyfile timeout server_os) acc
        = ⟨(if (execCommands world host username password keyfile timeout server_os cmds).status = "ok"
             then acc.status
             else (execCommands world host username password keyfile timeout server_os cmds).status),
           acc.output ++ (execCommands world host username password keyfile timeout server_os cmds).output,
           acc.trace ++ (execCommands world host username password keyfile timeout server_os cmds).trace⟩ := by
  induction cmds with
  | nil => intro acc; simp [execCommands]
  | cons c rest ih =>
    intro acc
    cases c with
    | notDict => simpa [commandStep, execCommands] using ih acc
    | dict o c? =>
      cases o with
      | none => simpa [commandStep, execCommands] using ih acc
      | some osTag =>
        cases c? with
        | none => simpa [commandStep, execCommands] using ih acc
        | some cmd =>
          by_cases hos : osTag = server_os
          · simp only [List.foldl_cons, commandStep, hos, if_true, execCommands]
            rw [ih]
            by_cases ha : (execCommands world host username password keyfile timeout server_os rest).status = "ok" <;>
              by_cases hr : (run_ssh_command world host username password keyfile cmd timeout).1 = "ok" <;>
                simp [ha, hr, String.append_assoc]
          · simpa [commandStep, execCommands, hos] using ih acc

/-- The command loop started from `⟨"ok", "", []⟩` (as in `processHost`)
computes exactly `execCommands`. -/
theorem execLoop_eq (world : SSHWorld) (host username : String)
    (password keyfile : Option String) (timeout : Int) (server_os : String)
    (cmds : List CmdEntry) :
    cmds.foldl (commandStep world host username password keyfile timeout server_os)
        ⟨"ok", "", []⟩
      = execCommands world host username password keyfile timeout server_os cmds := by
  rw [foldl_commandStep]
  by_cases h : (execCommands world host username password keyfile timeout server_os cmds).status = "ok"
  · simp only [h, if_true, String.empty_append, List.nil_append]
    rw [← h]
  · simp [h]

/-- `run_ssh_command` reports `"ok"` exactly when the oracle lets the whole
`try` block succeed — independently of the stderr stream's content. -/
theorem run_ssh_command_ok_iff (world : SSHWorld) (host username : String)
    (password keyfile : Option String) (command : String) (timeout : Int) :
    (run_ssh_command world host username password keyfile command timeout).1 = "ok"
      ↔ ∃ o e, world.run (sshCallOf host username password keyfile command timeout)
          = SSHResult.conn o e := by
  cases hw : world.run (sshCallOf host username password keyfile command timeout) with
  | conn o e => simp [run_ssh_command, hw]
  | exc m => simp [run_ssh_command, hw]

/-- The status of `run_ssh_command` is always `"ok"` or `"error"`. -/
theorem run_ssh_command_status_cases (world : SSHWorld) (host username : String)
    (password keyfile : Option String) (command : String) (timeout : Int) :
    (run_ssh_command world host username password keyfile command timeout).1 = "ok"
      ∨ (run_ssh_command world host username password keyfile command timeout).1 = "error" := by
  cases hw : world.run (sshCallOf host username password keyfile command timeout) with
  | conn o e => simp [run_ssh_command, hw]
  | exc m => simp [run_ssh_command, hw]

/-- The trace of the command loop: one SSH call per applicable command, in
input order, each built by `sshCallOf` from the host row's parameters. -/
theorem execCommands_trace (world : SSHWorld) (host username : String)
    (password keyfile : Option String) (timeout : Int) (server_os : String)
    (cmds : List CmdEntry) :
    (execCommands world host username password keyfile timeout server_os cmds).trace
      = (applicable server_os cmds).map
          (fun c => sshCallOf host username password keyfile c timeout) := by
  induction cmds with
  | nil => simp [execCommands, applicable]
  | cons c rest ih =>
    cases c with
    | notDict => simpa [execCommands, applicable] using ih
    | dict o c? =>
      cases o with
      | none => simpa [execCommands, applicable] using ih
      | some osTag =>
        cases c? with
        | none => simpa [execCommands, applicable] using ih
        | some cmd =>
          by_cases hos : osTag = server_os <;>
            simp [execCommands, applicable, hos, ih]

/-- The aggregated output of the command loop: the concatenation, in input
order, of one `"$ <command>\n<output>\n"` block per applicable command. -/
theorem execCommands_output (world : SSHWorld) (host username : String)
    (password keyfile : Option String) (timeout : Int) (server_os : String)
    (cmds : List CmdEntry) :
    (execCommands world host username password keyfile timeout server_os cmds).output
      = concatBlocks ((applicable server_os cmds).map
          (fun c => "$ " ++ c ++ "\n"
            ++ (run_ssh_command world host username password keyfile c timeout).2 ++ "\n")) := by
  induction cmds with
  | nil => simp [execCommands, applicable, concatBlocks]
  | cons c rest ih =>
    cases c with
    | notDict => simpa [execCommands, applicable] using ih
    | dict o c? =>
      cases o with
      | none => simpa [execCommands, applicable] using ih
      | some osTag =>
        cases c? with
        | none => simpa [execCommands, applicable] using ih
        | some cmd =>
          by_cases hos : osTag = server_os <;>
            simp [execCommands, applicable, concatBlocks, hos, ih]

/-- The final status of the command loop is `"ok"` exactly when every
applicable command's `run_ssh_command` status is `"ok"`. -/
theorem execCommands_status_ok (world : SSHWorld) (host username : String)
    (password keyfile : Option String) (timeout : Int) (server_os : String)
    (cmds : List CmdEntry) :
    ((execCommands world host username password keyfile timeout server_os cmds).status = "ok"
      ↔ ∀ c ∈ applicable server_os cmds,
          (run_ssh_command world host username password keyfile c timeout).1 = "ok") := by
  induction cmds with
  | nil => simp [execCommands, applicable]
  | cons c rest ih =>
    cases c with
    | notDict => simpa [execCommands, applicable] using ih
    | dict o c? =>
      cases o with
      | none => simpa [execCommands, applicable] using ih
      | some osTag =>
        cases c? with
        | none => simpa [execCommands, applicable] using ih
        | some cmd =>
          by_cases hos : osTag = server_os
          · by_cases ha : (execCommands world host username password keyfile timeout server_os rest).status = "ok" <;>
              by_cases hr : (run_ssh_command world host username password keyfile cmd timeout).1 = "ok" <;>
                simp [execCommands, applicable, hos, ha, hr, ← ih]
          · simpa [execCommands, applicable, hos] using ih

/-- The final status of the command loop is always `"ok"` or `"error"`. -/
theorem execCommands_status_cases (world : SSHWorld) (host username : String)
    (password keyfile : Option String) (timeout : Int) (server_os : String)
    (cmds : List CmdEntry) :
    (execCommands world host username password keyfile timeout server_os cmds).status = "ok"
      ∨ (execCommands world host username password keyfile timeout server_os cmds).status = "error" := by
  induction cmds with
  | nil => simp [execCommands]
  | cons c rest ih =>
    cases c with
    | notDict => simpa [execCommands] using ih
    | dict o c? =>
      cases o with
      | none => simpa [execCommands] using ih
      | some osTag =>
        cases c? with
        | none => simpa [execCommands] using ih
        | some cmd =>
          by_cases hos : osTag = server_os
          · rcases ih with ha | ha <;>
              rcases run_ssh_command_status_cases world host username password keyfile cmd timeout with hr | hr <;>
                simp [execCommands, hos, ha, hr]
          · simpa [execCommands, hos] using ih

/-- Every applicable command text comes from a request entry tagged with
exactly the server's OS. -/
theorem applicable_mem (server_os : String) (cmds : List CmdEntry) :
    ∀ c ∈ applicable server_os cmds,
      CmdEntry.dict (some server_os) (some c) ∈ cmds := by
  induction cmds with
  | nil => simp [applicable]
  | cons e rest ih =>
    cases e with
    | notDict =>
      intro c hc
      exact List.mem_cons_of_mem _ (ih c (by simpa [applicable] using hc))
    | dict o c? =>
      cases o with
      | none =>
        intro c hc
        exact List.mem_cons_of_mem _ (ih c (by simpa [applicable] using hc))
      | some osTag =>
        cases c? with
        | none =>
          intro c hc
          exact List.mem_cons_of_mem _ (ih c (by simpa [applicable] using hc))
        | some cmd =>
          by_cases hos : osTag = server_os
          · intro c hc
            rw [applicable, if_pos hos] at hc
            rcases List.mem_cons.mp hc with h | h
            · subst h; subst hos; exact List.mem_cons_self _ _
            · exact List.mem_cons_of_mem _ (ih c h)
          · intro c hc
            rw [applicable, if_neg hos] at hc
            exact List.mem_cons_of_mem _ (ih c hc)

/-- If no command is applicable, the command loop does nothing: status
`"ok"`, empty output, no SSH call. -/
theorem execCommands_of_applicable_nil (world : SSHWorld) (host username : String)
    (password keyfile : Option String) (timeout : Int) (server_os : String)
    (cmds : List CmdEntry) (h : applicable server_os cmds = []) :
    execCommands world host username password keyfile timeout server_os cmds
      = ⟨"ok", "", []⟩ := by
  induction cmds with
  | nil => simp [execCommands]
  | cons c rest ih =>
    cases c with
    | notDict => exact ih (by simpa [applicable] using h)
    | dict o c? =>
      cases o with
      | none => exact ih (by simpa [applicable] using h)
      | some osTag =>
        cases c? with
        | none => exact ih (by simpa [applicable] using h)
        | some cmd =>
          by_cases hos : osTag = server_os
          · rw [applicable, if_pos hos] at h
            exact absurd h (List.cons_ne_nil _ _)
          · rw [applicable, if_neg hos] at h
            simpa [execCommands, hos] using ih h

/-- A malformed entry is invisible to the command loop. -/
theorem execCommands_skip_malformed (world : SSHWorld) (host username : String)
    (password keyfile : Option String) (timeout : Int) (server_os : String)
    (bad : CmdEntry) (hbad : isMalformed bad = true) (c₁ c₂ : List CmdEntry) :
    execCommands world host username password keyfile timeout server_os (c₁ ++ bad :: c₂)
      = execCommands world host username password keyfile timeout server_os (c₁ ++ c₂) := by
  induction c₁ with
  | nil =>
    cases bad with
    | notDict => simp [execCommands]
    | dict o c? =>
      cases o with
      | none => simp [execCommands]
      | some osTag =>
        cases c? with
        | none => simp [execCommands]
        | some cmd => simp [isMalformed] at hbad
  | cons c rest ih =>
    cases c with
    | notDict => simpa [execCommands] using ih
    | dict o c? =>
      cases o with
      | none => simpa [execCommands] using ih
      | some osTag =>
        cases c? with
        | none => simpa [execCommands] using ih
        | some cmd =>
          by_cases hos : osTag = server_os <;>
            simp [execCommands, hos, ih]

/-- Unfolding `processHost` for a resolved id, with the command loop replaced
by its recursive characterization. -/
theorem processHost_resolved (world : SSHWorld) (decrypt : String → String)
    (servers : List Server) (cmds : List CmdEntry) (t : Int) (sid : Int)
    (srv : Server) (h : resolve servers sid = some srv) :
    processHost world decrypt servers cmds t sid
      = ⟨⟨sid,
          (execCommands world srv.host srv.username
            (decryptPassword decrypt srv.password_enc) srv.keyfile_path t srv.os cmds).status,
          (execCommands world srv.host srv.username
            (decryptPassword decrypt srv.password_enc) srv.keyfile_path t srv.os cmds).output⟩,
         [⟨sid, cmds,
           (execCommands world srv.host srv.username
             (decryptPassword decrypt srv.password_enc) srv.keyfile_path t srv.os cmds).output,
           (execCommands world srv.host srv.username
             (decryptPassword decrypt srv.password_enc) srv.keyfile_path t srv.os cmds).status⟩],
         (execCommands world srv.host srv.username
           (decryptPassword decrypt srv.password_enc) srv.keyfile_path t srv.os cmds).trace⟩ := by
  simp [processHost, h, execLoop_eq]

/-- Unfolding `processHost` for an unknown id. -/
theorem processHost_unresolved (world : SSHWorld) (decrypt : String → String)
    (servers : List Server) (cmds : List CmdEntry) (t : Int) (sid : Int)
    (h : resolve servers sid = none) :
    processHost world decrypt servers cmds t sid
      = ⟨⟨sid, "error", "Server not found"⟩, [], []⟩ := by
  simp [processHost, h]

/-- Each loop iteration's result carries the requested id. -/
theorem processHost_server_id (world : SSHWorld) (decrypt : String → String)
    (servers : List Server) (cmds : List CmdEntry) (t : Int) (sid : Int) :
    (processHost world decrypt servers cmds t sid).result.server_id = sid := by
  cases h : resolve servers sid with
  | none => simp [processHost, h]
  | some srv => simp [processHost, h]

/-- The host loop distributes over list append. -/
theorem run_command_loop_append (world : SSHWorld) (decrypt : String → String)
    (servers : List Server) (cmds : List CmdEntry) (t : Int)
    (ids₁ ids₂ : List Int) :
    run_command_loop world decrypt servers cmds t (ids₁ ++ ids₂)
      = ⟨(run_command_loop world decrypt servers cmds t ids₁).results
           ++ (run_command_loop world decrypt servers cmds t ids₂).results,
         (run_command_loop world decrypt servers cmds t ids₁).records
           ++ (run_command_loop world decrypt servers cmds t ids₂).records,
         (run_command_loop world decrypt servers cmds t ids₁).trace
           ++ (run_command_loop world decrypt servers cmds t ids₂).trace⟩ := by
  induction ids₁ with
  | nil => simp [run_command_loop]
  | cons sid rest ih => simp [run_command_loop, ih]

/-- The response array lists the requested ids in order, one result each. -/
theorem run_command_loop_ids (world : SSHWorld) (decrypt : String → String)
    (servers : List Server) (cmds : List CmdEntry) (t : Int) (ids : List Int) :
    (run_command_loop world decrypt servers cmds t ids).results.map
        (fun r => r.server_id) = ids := by
  induction ids with
  | nil => simp [run_command_loop]
  | cons sid rest ih => simp [run_command_loop, processHost_server_id, ih]

/-- The trace of a resolved host: one call per applicable command. -/
theorem processHost_trace (world : SSHWorld) (decrypt : String → String)
    (servers : List Server) (cmds : List CmdEntry) (t : Int) (sid : Int)
    (srv : Server) (h : resolve servers sid = some srv) :
    (processHost world decrypt servers cmds t sid).trace
      = (applicable srv.os cmds).map
          (fun c => sshCallOf srv.host srv.username
            (decryptPassword decrypt srv.password_enc) srv.keyfile_path c t) := by
  simp [processHost_resolved world decrypt servers cmds t sid srv h,
    execCommands_trace]

/-- Inserting a malformed command entry changes neither a host's result nor
its SSH calls (the persisted record's `command` column does change, since it
stores the raw request list). -/
theorem processHost_skip_malformed (world : SSHWorld) (decrypt : String → String)
    (servers : List Server) (t : Int) (sid : Int) (bad : CmdEntry)
    (hbad : isMalformed bad = true) (c₁ c₂ : List CmdEntry) :
    (processHost world decrypt servers (c₁ ++ bad :: c₂) t sid).result
        = (processHost world decrypt servers (c₁ ++ c₂) t sid).result
    ∧ (processHost world decrypt servers (c₁ ++ bad :: c₂) t sid).trace
        = (processHost world decrypt servers (c₁ ++ c₂) t sid).trace := by
  cases h : resolve servers sid with
  | none =>
    rw [processHost_unresolved world decrypt servers (c₁ ++ bad :: c₂) t sid h,
      processHost_unresolved world decrypt servers (c₁ ++ c₂) t sid h]
    exact ⟨rfl, rfl⟩
  | some srv =>
    rw [processHost_resolved world decrypt servers (c₁ ++ bad :: c₂) t sid srv h,
      processHost_resolved world decrypt servers (c₁ ++ c₂) t sid srv h,
      execCommands_skip_malformed world srv.host srv.username
        (decryptPassword decrypt srv.password_enc) srv.keyfile_path t srv.os
        bad hbad c₁ c₂]
    exact ⟨rfl, rfl⟩

/-- Lifting `processHost_skip_malformed` over the host loop. -/
theorem run_command_loop_skip_malformed (world : SSHWorld)
    (decrypt : String → String) (servers : List Server) (t : Int)
    (bad : CmdEntry) (hbad : isMalformed bad = true) (c₁ c₂ : List CmdEntry) :
    ∀ ids : List Int,
      (run_command_loop world decrypt servers (c₁ ++ bad :: c₂) t ids).results
          = (run_command_loop world decrypt servers (c₁ ++ c₂) t ids).results
      ∧ (run_command_loop world decrypt servers (c₁ ++ bad :: c₂) t ids).trace
          = (run_command_loop world decrypt servers (c₁ ++ c₂) t ids).trace := by
  intro ids
  induction ids with
  | nil => exact ⟨rfl, rfl⟩
  | cons sid rest ih =>
    have hh := processHost_skip_malformed world decrypt servers t sid bad hbad c₁ c₂
    simp [run_command_loop, hh.1, hh.2, ih.1, ih.2]

/-- Result statuses coming out of the host loop are always `"ok"` or
`"error"`. -/
theorem run_command_loop_status (world : SSHWorld) (decrypt : String → String)
    (servers : List Server) (cmds : List CmdEntry) (t : Int) :
    ∀ (ids : List Int) (r : RunResult),
      r ∈ (run_command_loop world decrypt servers cmds t ids).results →
        r.status = "ok" ∨ r.status = "error" := by
  intro ids
  induction ids with
  | nil => intro r hr; simp [run_command_loop] at hr
  | cons sid rest ih =>
    intro r hr
    simp only [run_command_loop, List.mem_cons] at hr
    rcases hr with h | h
    · subst h
      cases hres : resolve servers sid with
      | none =>
        rw [processHost_unresolved world decrypt servers cmds t sid hres]
        exact Or.inr rfl
      | some srv =>
        rw [processHost_resolved world decrypt servers cmds t sid srv hres]
        exact execCommands_status_cases world srv.host srv.username
          (decryptPassword decrypt srv.password_enc) srv.keyfile_path t srv.os cmds
    · exact ih r h

/-! ### Concrete fixtures used by counterexamples and witnesses -/

/-- A registered ubuntu host with password-less, keyfile-less credentials. -/
def srv1 : Server := ⟨1, "10.0.0.1", "root", none, none, "ubuntu"⟩

/-- An oracle on which every SSH call succeeds with stdout `"hi"` and empty
stderr. -/
def worldOk : SSHWorld := ⟨fun _ => SSHResult.conn "hi" ""⟩

/-- An oracle on which every SSH call succeeds with empty stdout and the
non-whitespace stderr `"boom"`. -/
def worldStderr : SSHWorld := ⟨fun _ => SSHResult.conn "" "boom"⟩

/-- An oracle on which every SSH call raises `"conn refused"` (e.g. the
connect itself fails). -/
def worldFail : SSHWorld := ⟨fun _ => SSHResult.exc "conn refused"⟩

/-- A well-formed ubuntu-tagged command entry. -/
def cmdU (c : String) : CmdEntry := CmdEntry.dict (some "ubuntu") (some c)

/-- A two-entry request: one ubuntu command, one centos command. -/
def cmds2 : List CmdEntry :=
  [CmdEntry.dict (some "ubuntu") (some "a"), CmdEntry.dict (some "centos") (some "b")]

/-! ### Claims -/

/-- Claim C1, counterexample.  The claim says a command's outcome is `Ok`
iff its trimmed stderr is empty, and that one non-empty stderr forces the
host's overall status to `Failed`.  On the code this is false: with a single
applicable command whose execution succeeds with empty stdout and the
non-whitespace stderr `"boom"`, `run_ssh_command` still returns status
`"ok"` (the status only tracks exceptions, app.py lines 83 and 97-99), so
the host's overall status is `"ok"`, not `Failed`; the stderr text is merely
appended to the output under an `ERR:` label. -/
theorem C1_counterexample :
    worldStderr.run (sshCallOf "10.0.0.1" "root" none none "c" 30)
        = SSHResult.conn "" "boom"
    ∧ trimmedNonempty "boom" = true
    ∧ (run_command worldStderr id [srv1]
          ⟨[1], [CmdEntry.dict (some "ubuntu") (some "c")], 30⟩).results
        = [⟨1, "ok", "$ c\n\nERR:\nboom\n"⟩] := by
  refine ⟨rfl, by decide, by decide⟩

/-- Claim C1, amended: a per-command outcome is classified `"ok"` iff no
connect/auth/exec exception was raised for that command (stderr content
never affects classification; it is only appended to the output, labeled
`ERR:`); consequently a host's overall status is `"ok"` iff every applicable
command ran without an exception. -/
theorem C1_theorem (world : SSHWorld) (decrypt : String → String)
    (servers : List Server) (cmds : List CmdEntry) (t : Int) (sid : Int)
    (srv : Server) (h : resolve servers sid = some srv) :
    ((processHost world decrypt servers cmds t sid).result.status = "ok"
      ↔ ∀ c ∈ applicable srv.os cmds,
          ∃ o e, world.run (sshCallOf srv.host srv.username
              (decryptPassword decrypt srv.password_enc) srv.keyfile_path c t)
            = SSHResult.conn o e) := by
  rw [processHost_resolved world decrypt servers cmds t sid srv h]
  show (execCommands world srv.host srv.username
      (decryptPassword decrypt srv.password_enc) srv.keyfile_path t srv.os cmds).status = "ok" ↔ _
  rw [execCommands_status_ok]
  constructor
  · intro hall c hc
    exact (run_ssh_command_ok_iff world srv.host srv.username
      (decryptPassword decrypt srv.password_enc) srv.keyfile_path c t).mp (hall c hc)
  · intro hall c hc
    exact (run_ssh_command_ok_iff world srv.host srv.username
      (decryptPassword decrypt srv.password_enc) srv.keyfile_path c t).mpr (hall c hc)

/-- Claim C1, witness: the amended theorem applied to a concrete host and a
failing oracle. -/
theorem C1_witness :
    resolve [srv1] 1 = some srv1
    ∧ ((processHost worldFail id [srv1] [cmdU "w1"] 30 1).result.status = "ok"
        ↔ ∀ c ∈ applicable srv1.os [cmdU "w1"],
            ∃ o e, worldFail.run (sshCallOf srv1.host srv1.username
                (decryptPassword id srv1.password_enc) srv1.keyfile_path c 30)
              = SSHResult.conn o e) :=
  ⟨by decide, C1_theorem worldFail id [srv1] [cmdU "w1"] 30 1 srv1 (by decide)⟩

/-- Claim C2, counterexample.  The claim says the engine connects exactly
once per resolved host and, after a failed connect, attempts zero command
executions.  On the code this is false: `run_ssh_command` opens a fresh
`SSHClient` per applicable command (it is called inside the command loop,
app.py line 210), so a host with two applicable commands yields two session
attempts even on a sound oracle; and when every connect fails, both commands
are still attempted and both exception texts appear as ordinary output
blocks. -/
theorem C2_counterexample :
    (processHost worldOk id [srv1] [cmdU "a", cmdU "b"] 30 1).trace.length = 2
    ∧ (processHost worldFail id [srv1] [cmdU "a", cmdU "b"] 30 1).trace.length = 2
    ∧ (processHost worldFail id [srv1] [cmdU "a", cmdU "b"] 30 1).result.output
        = "$ a\nconn refused\n$ b\nconn refused\n"
    ∧ worldFail.run (sshCallOf "10.0.0.1" "root" none none "a" 30)
        = SSHResult.exc "conn refused" := by
  refine ⟨by decide, by decide, by decide, rfl⟩

/-- Claim C2, amended: for every resolved host the engine opens one fresh
SSH session attempt per applicable command — the trace is exactly the
applicable-command list mapped to calls — so a failed connect on one command
marks that command `"error"` (its exception text becoming that command's
output block) but does not prevent the session attempts for the remaining
commands. -/
theorem C2_theorem (world : SSHWorld) (decrypt : String → String)
    (servers : List Server) (cmds : List CmdEntry) (t : Int) (sid : Int)
    (srv : Server) (h : resolve servers sid = some srv) :
    (processHost world decrypt servers cmds t sid).trace
      = (applicable srv.os cmds).map
          (fun c => sshCallOf srv.host srv.username
            (decryptPassword decrypt srv.password_enc) srv.keyfile_path c t) :=
  processHost_trace world decrypt servers cmds t sid srv h

/-- Claim C2, witness: the amended theorem at a concrete host. -/
theorem C2_witness :
    resolve [srv1] 1 = some srv1
    ∧ (processHost worldFail id [srv1] [cmdU "w2", cmdU "w2b"] 30 1).trace
        = (applicable srv1.os [cmdU "w2", cmdU "w2b"]).map
            (fun c => sshCallOf srv1.host srv1.username
              (decryptPassword id srv1.password_enc) srv1.keyfile_path c 30) :=
  ⟨by decide, C2_theorem worldFail id [srv1] [cmdU "w2", cmdU "w2b"] 30 1 srv1 (by decide)⟩

/-- Claim C3, counterexample.  The claim says a dispatch call with an empty
host set or an empty command set is rejected as malformed input before any
connection attempt and propagated to the caller as a hard failure.  On the
code there is no such validation (app.py lines 187-223 contain no emptiness
check and raise nothing): an empty host list yields the ordinary response
`[]`, and an empty command list yields an ordinary `"ok"` result with empty
output for the resolved host — in both cases with no connection attempt and
no error of any kind. -/
theorem C3_counterexample :
    run_command worldOk id [srv1] ⟨[], [cmdU "a"], 30⟩
        = ⟨[], [], []⟩
    ∧ (run_command worldOk id [srv1] ⟨[1], [], 30⟩).results
        = [⟨1, "ok", ""⟩]
    ∧ (run_command worldOk id [srv1] ⟨[1], [], 30⟩).trace = [] := by
  refine ⟨rfl, by decide, by decide⟩

/-- Claim C3, amended: empty inputs are not rejected — an empty host list
produces the empty response with no records and no connection attempts, and
an empty command list produces, for a resolved host, an `"ok"` result with
empty output (and its run record) with no connection attempt; moreover
dispatch is a total function whose every result status is `"ok"` or
`"error"` (all SSH failures are converted to the `"error"` classification at
the per-command boundary; nothing propagates as a hard failure). -/
theorem C3_theorem :
    (∀ (world : SSHWorld) (decrypt : String → String) (servers : List Server)
        (cmds : List CmdEntry) (t : Int),
      run_command world decrypt servers ⟨[], cmds, t⟩ = ⟨[], [], []⟩)
    ∧ (∀ (world : SSHWorld) (decrypt : String → String) (servers : List Server)
        (t : Int) (sid : Int) (srv : Server), resolve servers sid = some srv →
      processHost world decrypt servers [] t sid
        = ⟨⟨sid, "ok", ""⟩, [⟨sid, [], "", "ok"⟩], []⟩)
    ∧ (∀ (world : SSHWorld) (decrypt : String → String) (servers : List Server)
        (payload : RunPayload) (r : RunResult),
        r ∈ (run_command world decrypt servers payload).results →
          r.status = "ok" ∨ r.status = "error") := by
  refine ⟨fun world decrypt servers cmds t => rfl, ?_, ?_⟩
  · intro world decrypt servers t sid srv h
    rw [processHost_resolved world decrypt servers [] t sid srv h]
    rfl
  · intro world decrypt servers payload r hr
    exact run_command_loop_status world decrypt servers payload.commands
      payload.timeout payload.server_ids r hr

/-- Claim C3, witness: the empty-command-set part of the amended theorem at
a concrete host. -/
theorem C3_witness :
    resolve [srv1] 1 = some srv1
    ∧ processHost worldOk id [srv1] ([] : List CmdEntry) 30 1
        = ⟨⟨1, "ok", ""⟩, [⟨1, [], "", "ok"⟩], []⟩ :=
  ⟨by decide, C3_theorem.2.1 worldOk id [srv1] 30 1 srv1 (by decide)⟩

/-- Claim C4, counterexample.  The claim says the persisted run record's
command payload is the host-filtered subset actually sent.  On the code it
is the full unfiltered request list (`json.dumps(payload.commands)`, app.py
line 218): for an ubuntu host given one ubuntu and one centos command, only
`"a"` is sent (one SSH call) yet the stored payload is the whole two-entry
list, which differs from the filtered subset. -/
theorem C4_counterexample :
    (run_command worldOk id [srv1] ⟨[1], cmds2, 30⟩).records.map
        (fun rec => rec.command) = [cmds2]
    ∧ (run_command worldOk id [srv1] ⟨[1], cmds2, 30⟩).trace.map
        (fun call => call.command) = ["a"]
    ∧ cmds2 ≠ [CmdEntry.dict (some "ubuntu") (some "a")] := by
  refine ⟨by decide, by decide, by decide⟩

/-- Claim C4, amended: for every resolved host, exactly one run record is
persisted and its command payload is the full request command list
(identical for every host of the invocation), not the filtered subset sent
to that host. -/
theorem C4_theorem (world : SSHWorld) (decrypt : String → String)
    (servers : List Server) (cmds : List CmdEntry) (t : Int) (sid : Int)
    (srv : Server) (h : resolve servers sid = some srv) :
    (processHost world decrypt servers cmds t sid).records
      = [⟨sid, cmds,
          (processHost world decrypt servers cmds t sid).result.output,
          (processHost world decrypt servers cmds t sid).result.status⟩] := by
  rw [processHost_resolved world decrypt servers cmds t sid srv h]

/-- Claim C4, witness: the amended theorem at a concrete host. -/
theorem C4_witness :
    resolve [srv1] 1 = some srv1
    ∧ (processHost worldOk id [srv1] cmds2 30 1).records
        = [⟨1, cmds2,
            (processHost worldOk id [srv1] cmds2 30 1).result.output,
            (processHost worldOk id [srv1] cmds2 30 1).result.status⟩] :=
  ⟨by decide, C4_theorem worldOk id [srv1] cmds2 30 1 srv1 (by decide)⟩

/-- Claim C5, counterexample.  The claim says the response has exactly one
entry per *distinct* requested host id.  On the code a duplicated id is
processed once per occurrence (the loop iterates over the raw list, app.py
line 190): requesting `[1, 1]` returns two entries for host 1 although only
one distinct id was requested. -/
theorem C5_counterexample :
    (run_command worldOk id [srv1] ⟨[1, 1], [cmdU "a"], 30⟩).results.length = 2
    ∧ ((run_command worldOk id [srv1] ⟨[1, 1], [cmdU "a"], 30⟩).results.map
        (fun r => r.server_id)) = [1, 1]
    ∧ ([(1 : Int), 1] : List Int).dedup.length = 1 := by
  refine ⟨by decide, by decide, by decide⟩

/-- Claim C5, amended: the response contains exactly one entry per element
of the requested host-id list (counting multiplicity), in request order —
the i-th result carries the i-th requested id — so partial failure of one
host never discards the results of the others. -/
theorem C5_theorem (world : SSHWorld) (decrypt : String → String)
    (servers : List Server) (payload : RunPayload) :
    (run_command world decrypt servers payload).results.map
        (fun r => r.server_id) = payload.server_ids
    ∧ (run_command world decrypt servers payload).results.length
        = payload.server_ids.length := by
  have h := run_command_loop_ids world decrypt servers payload.commands
    payload.timeout payload.server_ids
  refine ⟨h, ?_⟩
  conv_rhs => rw [← h]
  rw [List.length_map]
  rfl

/-- Claim C6, confirmed: a requested id with no matching server row yields
the per-host result `{status: "error", output: "Server not found"}`, inserts
no run record, triggers no SSH call (empty trace), and the batch continues —
the response for `ids₁ ++ sid :: ids₂` is the response for `ids₁`, then that
entry, then the response for `ids₂` (app.py lines 196-198). -/
theorem C6_theorem (world : SSHWorld) (decrypt : String → String)
    (servers : List Server) (cmds : List CmdEntry) (t : Int) (sid : Int)
    (ids₁ ids₂ : List Int) (h : resolve servers sid = none) :
    processHost world decrypt servers cmds t sid
        = ⟨⟨sid, "error", "Server not found"⟩, [], []⟩
    ∧ (run_command world decrypt servers ⟨ids₁ ++ sid :: ids₂, cmds, t⟩).results
        = (run_command world decrypt servers ⟨ids₁, cmds, t⟩).results
          ++ ⟨sid, "error", "Server not found"⟩
            :: (run_command world decrypt servers ⟨ids₂, cmds, t⟩).results := by
  refine ⟨processHost_unresolved world decrypt servers cmds t sid h, ?_⟩
  show (run_command_loop world decrypt servers cmds t (ids₁ ++ sid :: ids₂)).results = _
  rw [run_command_loop_append]
  simp [run_command_loop, processHost_unresolved world decrypt servers cmds t sid h,
    run_command]

/-- Claim C6, witness: the theorem with registered host 1 and unknown id 2. -/
theorem C6_witness :
    resolve [srv1] 2 = none
    ∧ (processHost worldOk id [srv1] [cmdU "w6"] 30 2
          = ⟨⟨2, "error", "Server not found"⟩, [], []⟩
      ∧ (run_command worldOk id [srv1] ⟨[1] ++ 2 :: [], [cmdU "w6"], 30⟩).results
          = (run_command worldOk id [srv1] ⟨[1], [cmdU "w6"], 30⟩).results
            ++ ⟨2, "error", "Server not found"⟩
              :: (run_command worldOk id [srv1] ⟨[], [cmdU "w6"], 30⟩).results) :=
  ⟨by decide, C6_theorem worldOk id [srv1] [cmdU "w6"] 30 2 [1] [] (by decide)⟩

/-- Claim C7, confirmed: every SSH call issued for a resolved host carries a
command text that occurs in the request tagged with exactly the host's
`os` (so an entry whose tag differs from the host's OS is never sent — the
comparison on app.py line 208 is string equality, with no wildcard or
aliasing); and a host whose applicable subset is empty yields status `"ok"`
with empty aggregated output and no SSH call. -/
theorem C7_theorem (world : SSHWorld) (decrypt : String → String)
    (servers : List Server) (cmds : List CmdEntry) (t : Int) (sid : Int)
    (srv : Server) (h : resolve servers sid = some srv) :
    (∀ call ∈ (processHost world decrypt servers cmds t sid).trace,
        CmdEntry.dict (some srv.os) (some call.command) ∈ cmds)
    ∧ (applicable srv.os cmds = [] →
        (processHost world decrypt servers cmds t sid).result = ⟨sid, "ok", ""⟩
        ∧ (processHost world decrypt servers cmds t sid).trace = []) := by
  constructor
  · intro call hcall
    rw [processHost_trace world decrypt servers cmds t sid srv h] at hcall
    rw [List.mem_map] at hcall
    obtain ⟨c, hc, hcc⟩ := hcall
    have := applicable_mem srv.os cmds c hc
    rw [← hcc]
    simpa [sshCallOf] using this
  · intro hnil
    rw [processHost_resolved world decrypt servers cmds t sid srv h,
      execCommands_of_applicable_nil world srv.host srv.username
        (decryptPassword decrypt srv.password_enc) srv.keyfile_path t srv.os cmds hnil]
    exact ⟨rfl, rfl⟩

/-- Claim C7, witness: the theorem at a host with one matching and one
non-matching entry (the non-matching tag is never sent), and trivially also
covering the empty-subset branch. -/
theorem C7_witness :
    resolve [srv1] 1 = some srv1
    ∧ ((∀ call ∈ (processHost worldOk id [srv1] cmds2 30 1).trace,
          CmdEntry.dict (some srv1.os) (some call.command) ∈ cmds2)
      ∧ (applicable srv1.os cmds2 = [] →
          (processHost worldOk id [srv1] cmds2 30 1).result = ⟨1, "ok", ""⟩
          ∧ (processHost worldOk id [srv1] cmds2 30 1).trace = [])) :=
  ⟨by decide, C7_theorem worldOk id [srv1] cmds2 30 1 srv1 (by decide)⟩

/-- Claim C8, confirmed: for a resolved host whose every applicable command
connects and executes without exception, the aggregated output is the
concatenation, in the input order of the applicable commands, of one
`"$ <command>\n<output>\n"` block per executed command (app.py line 211); on
the code this shape in fact holds whether or not the commands fail, the
failing command's block simply carrying its exception text as output. -/
theorem C8_theorem (world : SSHWorld) (decrypt : String → String)
    (servers : List Server) (cmds : List CmdEntry) (t : Int) (sid : Int)
    (srv : Server) (h : resolve servers sid = some srv)
    (hconn : ∀ c ∈ applicable srv.os cmds,
      ∃ o e, world.run (sshCallOf srv.host srv.username
          (decryptPassword decrypt srv.password_enc) srv.keyfile_path c t)
        = SSHResult.conn o e) :
    (processHost world decrypt servers cmds t sid).result.output
      = concatBlocks ((applicable srv.os cmds).map
          (fun c => "$ " ++ c ++ "\n"
            ++ (run_ssh_command world srv.host srv.username
                 (decryptPassword decrypt srv.password_enc) srv.keyfile_path c t).2
            ++ "\n")) := by
  rw [processHost_resolved world decrypt servers cmds t sid srv h]
  exact execCommands_output world srv.host srv.username
    (decryptPassword decrypt srv.password_enc) srv.keyfile_path t srv.os cmds

/-- Claim C8, witness: the theorem at a concrete host on the all-successful
oracle, the connectivity hypothesis discharged explicitly. -/
theorem C8_witness :
    resolve [srv1] 1 = some srv1
    ∧ (∀ c ∈ applicable srv1.os [cmdU "w8"],
        ∃ o e, worldOk.run (sshCallOf srv1.host srv1.username
            (decryptPassword id srv1.password_enc) srv1.keyfile_path c 30)
          = SSHResult.conn o e)
    ∧ (processHost worldOk id [srv1] [cmdU "w8"] 30 1).result.output
        = concatBlocks ((applicable srv1.os [cmdU "w8"]).map
            (fun c => "$ " ++ c ++ "\n"
              ++ (run_ssh_command worldOk srv1.host srv1.username
                   (decryptPassword id srv1.password_enc) srv1.keyfile_path c 30).2
              ++ "\n")) :=
  ⟨by decide, fun c _ => ⟨"hi", "", rfl⟩,
    C8_theorem worldOk id [srv1] [cmdU "w8"] 30 1 srv1 (by decide)
      (fun c _ => ⟨"hi", "", rfl⟩)⟩

/-- Claim C9, confirmed: every SSH call issued for a resolved host uses the
key file when the host row carries a truthy `keyfile_path` (non-null,
non-empty — `if keyfile:` on app.py line 87), and otherwise the (decrypted)
password; `AuthMethod` being a sum type, a single attempt never carries both
methods. -/
theorem C9_theorem (world : SSHWorld) (decrypt : String → String)
    (servers : List Server) (cmds : List CmdEntry) (t : Int) (sid : Int)
    (srv : Server) (h : resolve servers sid = some srv) :
    ∀ call ∈ (processHost world decrypt servers cmds t sid).trace,
      (∀ k, srv.keyfile_path = some k → k ≠ "" → call.auth = AuthMethod.key k)
      ∧ ((srv.keyfile_path = none ∨ srv.keyfile_path = some "") →
          call.auth = AuthMethod.pwd (decryptPassword decrypt srv.password_enc)) := by
  intro call hcall
  rw [processHost_trace world decrypt servers cmds t sid srv h] at hcall
  rw [List.mem_map] at hcall
  obtain ⟨c, hc, hcc⟩ := hcall
  rw [← hcc]
  constructor
  · intro k hk hne
    simp [sshCallOf, authOf, hk, hne]
  · intro hk
    rcases hk with hk | hk <;> simp [sshCallOf, authOf, hk]

/-- Claim C9, witness: the theorem at a host with a key file on record. -/
theorem C9_witness :
    resolve [⟨7, "10.0.0.7", "admin", some "enc7", some "/keys/k7.pem", "centos"⟩] 7
        = some ⟨7, "10.0.0.7", "admin", some "enc7", some "/keys/k7.pem", "centos"⟩
    ∧ ∀ call ∈ (processHost worldOk id
          [⟨7, "10.0.0.7", "admin", some "enc7", some "/keys/k7.pem", "centos"⟩]
          [CmdEntry.dict (some "centos") (some "w9")] 30 7).trace,
        (∀ k, (⟨7, "10.0.0.7", "admin", some "enc7", some "/keys/k7.pem", "centos"⟩ : Server).keyfile_path
              = some k → k ≠ "" → call.auth = AuthMethod.key k)
        ∧ (((⟨7, "10.0.0.7", "admin", some "enc7", some "/keys/k7.pem", "centos"⟩ : Server).keyfile_path = none
            ∨ (⟨7, "10.0.0.7", "admin", some "enc7", some "/keys/k7.pem", "centos"⟩ : Server).keyfile_path = some "") →
            call.auth = AuthMethod.pwd (decryptPassword id (some "enc7"))) :=
  ⟨by decide, C9_theorem worldOk id
    [⟨7, "10.0.0.7", "admin", some "enc7", some "/keys/k7.pem", "centos"⟩]
    [CmdEntry.dict (some "centos") (some "w9")] 30 7
    ⟨7, "10.0.0.7", "admin", some "enc7", some "/keys/k7.pem", "centos"⟩ (by decide)⟩

/-- Claim C10, confirmed: a request entry that is not a dictionary or lacks
the `"os"` or `"cmd"` key is skipped for every host (the guard on app.py
line 206): deleting it from the request changes neither any host's response
entry (status and aggregated output included) nor any SSH call, and the
invocation is not aborted. -/
theorem C10_theorem (bad : CmdEntry) (hbad : isMalformed bad = true)
    (world : SSHWorld) (decrypt : String → String) (servers : List Server)
    (ids : List Int) (c₁ c₂ : List CmdEntry) (t : Int) :
    (run_command world decrypt servers ⟨ids, c₁ ++ bad :: c₂, t⟩).results
        = (run_command world decrypt servers ⟨ids, c₁ ++ c₂, t⟩).results
    ∧ (run_command world decrypt servers ⟨ids, c₁ ++ bad :: c₂, t⟩).trace
        = (run_command world decrypt servers ⟨ids, c₁ ++ c₂, t⟩).trace :=
  run_command_loop_skip_malformed world decrypt servers t bad hbad c₁ c₂ ids

/-- Claim C10, witness: the theorem with a dictionary lacking the `"cmd"`
key inserted between two well-formed entries. -/
theorem C10_witness :
    isMalformed (CmdEntry.dict (some "ubuntu") none) = true
    ∧ ((run_command worldOk id [srv1]
          ⟨[1], [cmdU "wa"] ++ CmdEntry.dict (some "ubuntu") none :: [cmdU "wb"], 30⟩).results
        = (run_command worldOk id [srv1]
            ⟨[1], [cmdU "wa"] ++ [cmdU "wb"], 30⟩).results
      ∧ (run_command worldOk id [srv1]
            ⟨[1], [cmdU "wa"] ++ CmdEntry.dict (some "ubuntu") none :: [cmdU "wb"], 30⟩).trace
          = (run_command worldOk id [srv1]
              ⟨[1], [cmdU "wa"] ++ [cmdU "wb"], 30⟩).trace) :=
  ⟨by decide, C10_theorem (CmdEntry.dict (some "ubuntu") none) (by decide)
    worldOk id [srv1] [1] [cmdU "wa"] [cmdU "wb"] 30⟩

end ScriptRunner
